import Mathlib

/-!
Shallow embedding of the namegen repository's category model
(`namegenPack/morpho/MorphCategories.py`) and name filters
(`namegenPack/Filters.py`), with theorems checking the specification's
claims about them.

Python exceptions are modelled by an explicit error type `PyError`;
a Python call that may raise is embedded as an `Except PyError`-valued
function.  Python dicts appear as association lists, Python sets as
lists queried only through membership.
-/

/-- Errors raised by the embedded Python code.  Constructors correspond to
the Python exception classes that the embedded code can raise:
`MorphCategoryInvalidException` (carrying the offending value),
`MorphCategoryInvalidValueException` (carrying the category lntrf mark and
the offending value), Python's built-in `NotImplementedError` and
`TypeError`, and `namegenPack.Grammar.Grammar.NotInLanguage`.
The message-formatting machinery of the `Errors` module (not part of the
sources under study) is abstracted away: an exception is identified by its
class and constructor data. -/
inductive PyError
  | invalidCategory (value : String)
  | invalidCategoryValue (category : String) (value : String)
  | notImplementedError
  | typeError
  | notInLanguage
deriving DecidableEq

deriving instance DecidableEq for Except

/-- Values of Python enum members in `MorphCategories.py`: each member's
`value` is either an `int` (e.g. `NOUN=1`) or a `str` (e.g. `MASCULINE_ANIMATE="M"`). -/
inductive PyVal
  | int (n : Int)
  | str (s : String)
deriving DecidableEq

/-- Python's `str(...)` applied to an enum member's value. -/
def PyVal.pyStr : PyVal → String
  | .int n => toString n
  | .str s => s

/-- Enum `MorphCategories`: the seven morphological category kinds. -/
inductive MorphCategories
  | POS
  | GENDER
  | NUMBER
  | CASE
  | NEGATION
  | DEGREE_OF_COMPARISON
  | PERSON
deriving DecidableEq, Fintype

namespace MorphCategories

/-- Classmethod `MorphCategories._mappingLntrf`: the dict mapping each kind
to its lntrf code, as an association list in source order. -/
def mappingLntrf : List (MorphCategories × String) :=
  [(.POS, "k"), (.GENDER, "g"), (.NUMBER, "n"), (.CASE, "c"),
   (.NEGATION, "e"), (.DEGREE_OF_COMPARISON, "d"), (.PERSON, "p")]

/-- Property `MorphCategories.lntrf`: `self._mappingLntrf()[self]`.  Every
member is a key of the dict, so the lookup always succeeds; it is embedded
as the corresponding total function. -/
def lntrf : MorphCategories → String
  | .POS => "k"
  | .GENDER => "g"
  | .NUMBER => "n"
  | .CASE => "c"
  | .NEGATION => "e"
  | .DEGREE_OF_COMPARISON => "d"
  | .PERSON => "p"

/-- Classmethod `MorphCategories.fromLntrf`: looks `val` up in the reversed
dict `{v: k for k, v in cls._mappingLntrf().items()}` and raises
`MorphCategoryInvalidException(val)` on `KeyError`.  In the Python dict
comprehension a later pair would overwrite an earlier one with the same
code, so the reversed association list is searched from its end. -/
def fromLntrf (val : String) : Except PyError MorphCategories :=
  match ((mappingLntrf.map (fun kv => (kv.2, kv.1))).reverse).lookup val with
  | some k => .ok k
  | none => .error (.invalidCategory val)

end MorphCategories

/-- Data of one concrete subclass of the Python base class `MorphCategory`
(an enum of values of one kind): its members in definition order, each
member's Python `value`, and what the expression `cls.category()` does.
The base class declares `category()` as a static method that raises
`NotImplementedError`; the subclasses each define a method named
`_category` (with a leading underscore) and never override `category`,
so for every subclass in the file `cls.category()` resolves to the base
method and raises. -/
structure MorphCategoryCls (α : Type) where
  members : List α
  value : α → PyVal
  categoryMethod : Except PyError MorphCategories

namespace MorphCategory

/-- Static method `MorphCategory.category`: `raise NotImplementedError`. -/
def category : Except PyError MorphCategories := .error .notImplementedError

/-- Classmethod `MorphCategory._mappingLntrf`: the implicit mapping
`{e: str(e.value) for e in cls}` as an association list. -/
def mappingLntrf {α : Type} (cls : MorphCategoryCls α) : List (α × String) :=
  cls.members.map (fun e => (e, (cls.value e).pyStr))

/-- Method `MorphCategory.lntrfValue`: `self._mappingLntrf()[self]`.
Every enum member is a key of that dict with value `str(self.value)`, so
the lookup is embedded as the total function it computes. -/
def lntrfValue {α : Type} (cls : MorphCategoryCls α) (v : α) : String :=
  (cls.value v).pyStr

/-- Method `MorphCategory.lntrf`: `return self.category().lntrf+self.lntrfValue`.
Python evaluates `self.category()` first; for every subclass in the file this
raises `NotImplementedError` (see `MorphCategoryCls`).  Were a category
available, the source would then add a *bound method* (`self.lntrfValue`
lacks call parentheses) to a string, which raises `TypeError`. -/
def lntrf {α : Type} (cls : MorphCategoryCls α) (_v : α) : Except PyError String :=
  match cls.categoryMethod with
  | .error e => .error e
  | .ok _cat => .error .typeError

/-- Classmethod `MorphCategory.fromLntrf`: looks `val` up in the reversed
dict `{v: k for k, v in cls._mappingLntrf().items()}`; on `KeyError` it
evaluates `MorphCategoryInvalidValueException(cls.category().lntrf, val)`,
whose first argument runs `cls.category()` before the exception object can
be built, so any error from `cls.category()` propagates instead. -/
def fromLntrf {α : Type} [DecidableEq α] (cls : MorphCategoryCls α)
    (val : String) : Except PyError α :=
  match (((mappingLntrf cls).map (fun kv => (kv.2, kv.1))).reverse).lookup val with
  | some k => .ok k
  | none =>
    match cls.categoryMethod with
    | .error e => .error e
    | .ok cat => .error (.invalidCategoryValue cat.lntrf val)

/-- Value codes registered for a subclass: `str(e.value)` over its members. -/
def codes {α : Type} (cls : MorphCategoryCls α) : List String :=
  cls.members.map (fun e => (cls.value e).pyStr)

end MorphCategory

/-- Enum `POS`: parts of speech, values 1..10. -/
inductive POS
  | NOUN
  | ADJECTIVE
  | PRONOUN
  | NUMERAL
  | VERB
  | ADVERB
  | PREPOSITION
  | CONJUNCTION
  | PARTICLE
  | INTERJECTION
deriving DecidableEq, Fintype

namespace POS

def value : POS → PyVal
  | .NOUN => .int 1
  | .ADJECTIVE => .int 2
  | .PRONOUN => .int 3
  | .NUMERAL => .int 4
  | .VERB => .int 5
  | .ADVERB => .int 6
  | .PREPOSITION => .int 7
  | .CONJUNCTION => .int 8
  | .PARTICLE => .int 9
  | .INTERJECTION => .int 10

/-- Class data of `POS`.  The subclass defines `_category` returning
`MorphCategories.POS`, but `category()` is the unoverridden base method. -/
def cls : MorphCategoryCls POS :=
  { members := [.NOUN, .ADJECTIVE, .PRONOUN, .NUMERAL, .VERB, .ADVERB,
                .PREPOSITION, .CONJUNCTION, .PARTICLE, .INTERJECTION]
    value := value
    categoryMethod := MorphCategory.category }

/-- Static method `POS._category`. -/
def underscoreCategory : MorphCategories := .POS

def lntrfValue (v : POS) : String := MorphCategory.lntrfValue cls v

def lntrf (v : POS) : Except PyError String := MorphCategory.lntrf cls v

def fromLntrf (val : String) : Except PyError POS := MorphCategory.fromLntrf cls val

end POS

/-- Enum `Gender`, string-valued members. -/
inductive Gender
  | MASCULINE_ANIMATE
  | MASCULINE_INANIMATE
  | NEUTER
  | FEMINE
  | FAMILY
deriving DecidableEq, Fintype

namespace Gender

def value : Gender → PyVal
  | .MASCULINE_ANIMATE => .str "M"
  | .MASCULINE_INANIMATE => .str "I"
  | .NEUTER => .str "N"
  | .FEMINE => .str "F"
  | .FAMILY => .str "R"

def cls : MorphCategoryCls Gender :=
  { members := [.MASCULINE_ANIMATE, .MASCULINE_INANIMATE, .NEUTER, .FEMINE, .FAMILY]
    value := value
    categoryMethod := MorphCategory.category }

/-- Static method `Gender._category`. -/
def underscoreCategory : MorphCategories := .GENDER

def lntrfValue (v : Gender) : String := MorphCategory.lntrfValue cls v

def lntrf (v : Gender) : Except PyError String := MorphCategory.lntrf cls v

def fromLntrf (val : String) : Except PyError Gender := MorphCategory.fromLntrf cls val

end Gender

/-- Enum `Number`, string-valued members. -/
inductive Number
  | SINGULAR
  | PLURAL
  | DUAL
  | R
deriving DecidableEq, Fintype

namespace Number

def value : Number → PyVal
  | .SINGULAR => .str "S"
  | .PLURAL => .str "P"
  | .DUAL => .str "D"
  | .R => .str "R"

def cls : MorphCategoryCls Number :=
  { members := [.SINGULAR, .PLURAL, .DUAL, .R]
    value := value
    categoryMethod := MorphCategory.category }

/-- Static method `Number._category`. -/
def underscoreCategory : MorphCategories := .NUMBER

def lntrfValue (v : Number) : String := MorphCategory.lntrfValue cls v

def lntrf (v : Number) : Except PyError String := MorphCategory.lntrf cls v

def fromLntrf (val : String) : Except PyError Number := MorphCategory.fromLntrf cls val

end Number

/-- Enum `Case`, values 1..7 (the seven Czech cases). -/
inductive Case
  | NOMINATIVE
  | GENITIVE
  | DATIVE
  | ACCUSATIVE
  | VOCATIVE
  | LOCATIVE
  | INSTRUMENTAL
deriving DecidableEq, Fintype

namespace Case

def value : Case → PyVal
  | .NOMINATIVE => .int 1
  | .GENITIVE => .int 2
  | .DATIVE => .int 3
  | .ACCUSATIVE => .int 4
  | .VOCATIVE => .int 5
  | .LOCATIVE => .int 6
  | .INSTRUMENTAL => .int 7

def cls : MorphCategoryCls Case :=
  { members := [.NOMINATIVE, .GENITIVE, .DATIVE, .ACCUSATIVE, .VOCATIVE,
                .LOCATIVE, .INSTRUMENTAL]
    value := value
    categoryMethod := MorphCategory.category }

/-- Static method `Case._category`. -/
def underscoreCategory : MorphCategories := .CASE

def lntrfValue (v : Case) : String := MorphCategory.lntrfValue cls v

def lntrf (v : Case) : Except PyError String := MorphCategory.lntrf cls v

def fromLntrf (val : String) : Except PyError Case := MorphCategory.fromLntrf cls val

end Case

/-- Enum `Negation`, string-valued members. -/
inductive Negation
  | AFFIRMATIVE
  | NEGATED
deriving DecidableEq, Fintype

namespace Negation

def value : Negation → PyVal
  | .AFFIRMATIVE => .str "A"
  | .NEGATED => .str "N"

def cls : MorphCategoryCls Negation :=
  { members := [.AFFIRMATIVE, .NEGATED]
    value := value
    categoryMethod := MorphCategory.category }

/-- Static method `Negation._category`. -/
def underscoreCategory : MorphCategories := .NEGATION

def lntrfValue (v : Negation) : String := MorphCategory.lntrfValue cls v

def lntrf (v : Negation) : Except PyError String := MorphCategory.lntrf cls v

def fromLntrf (val : String) : Except PyError Negation := MorphCategory.fromLntrf cls val

end Negation

/-- Enum `DegreeOfComparison`, values 1..3. -/
inductive DegreeOfComparison
  | POSITIVE
  | COMPARATIVE
  | SUPERLATIVE
deriving DecidableEq, Fintype

namespace DegreeOfComparison

def value : DegreeOfComparison → PyVal
  | .POSITIVE => .int 1
  | .COMPARATIVE => .int 2
  | .SUPERLATIVE => .int 3

def cls : MorphCategoryCls DegreeOfComparison :=
  { members := [.POSITIVE, .COMPARATIVE, .SUPERLATIVE]
    value := value
    categoryMethod := MorphCategory.category }

/-- Static method `DegreeOfComparison._category`. -/
def underscoreCategory : MorphCategories := .DEGREE_OF_COMPARISON

def lntrfValue (v : DegreeOfComparison) : String := MorphCategory.lntrfValue cls v

def lntrf (v : DegreeOfComparison) : Except PyError String := MorphCategory.lntrf cls v

def fromLntrf (val : String) : Except PyError DegreeOfComparison :=
  MorphCategory.fromLntrf cls val

end DegreeOfComparison

/-- Enum `Person`: values 1, 2, 3 and the string "X". -/
inductive Person
  | FIRST
  | SECOND
  | THIRD
  | ANY
deriving DecidableEq, Fintype

namespace Person

def value : Person → PyVal
  | .FIRST => .int 1
  | .SECOND => .int 2
  | .THIRD => .int 3
  | .ANY => .str "X"

def cls : MorphCategoryCls Person :=
  { members := [.FIRST, .SECOND, .THIRD, .ANY]
    value := value
    categoryMethod := MorphCategory.category }

/-- Static method `Person._category`. -/
def underscoreCategory : MorphCategories := .PERSON

def lntrfValue (v : Person) : String := MorphCategory.lntrfValue cls v

def lntrf (v : Person) : Except PyError String := MorphCategory.lntrf cls v

def fromLntrf (val : String) : Except PyError Person := MorphCategory.fromLntrf cls val

end Person

/-- Environment of Python string primitives used by `Filters.py`.  Their
behaviour on arbitrary Unicode characters is outside the sources under
study, so the embedding is parameterized over them: `pyIsAlpha` is
`str.isalpha` on a single character, `pyUpperChar` is `str.upper` on a
single character (which may return several characters), `pyUpperStr` is
`str.upper` on a whole string, and `unicodedataName` is
`unicodedata.name(c, "")`. -/
structure PyEnv where
  pyIsAlpha : Char → Bool
  pyUpperChar : Char → String
  pyUpperStr : String → String
  unicodedataName : Char → String

/-- Auxiliary for `pyIn`: does `needle` occur contiguously in the list? -/
def substrAux (needle : List Char) : List Char → Bool
  | [] => needle.isEmpty
  | c :: cs => needle.isPrefixOf (c :: cs) || substrAux needle cs

/-- Python's `needle in haystack` on strings: substring containment. -/
def pyIn (needle haystack : String) : Bool :=
  substrAux needle.data haystack.data

/-- The part of a `Name` object that `Filters.py` reads: `o.language.code`
and `str(o)` (the raw string form). -/
structure PyName where
  languageCode : String
  str : String

/-- Function `alwaysTrue`: returns `True` regardless of its arguments. -/
def alwaysTrue {α : Type} (_o : α) : Bool := true

/-- Method `NameLanguagesFilter.__call__`:
`o.language.code in self._languages`, with the allowed-language set as a
list queried by membership. -/
def NameLanguagesFilter.call (languages : List String) (o : PyName) : Bool :=
  languages.contains o.languageCode

/-- Method `NameRegexFilter.__call__`: `bool(self._nameRegex.match(str(o)))`.
The compiled pattern is abstracted as the boolean matching function it
induces on strings. -/
def NameRegexFilter.call (nameRegex : String → Bool) (o : PyName) : Bool :=
  nameRegex o.str

namespace NameAlfaFilter

/-- Constructor `NameAlfaFilter.__init__`: stores `alfas`, uppercased
elementwise when `caseInsensitive` (the default `True`). -/
def init (env : PyEnv) (alfas : List String) (caseInsensitive : Bool) : List String :=
  if caseInsensitive then alfas.map env.pyUpperStr else alfas

/-- Method `NameAlfaFilter.__call__`:
`all(not c.isalpha() or c.upper() in self._alfas for c in str(o))`. -/
def call (env : PyEnv) (alfasStored : List String) (o : String) : Bool :=
  o.data.all (fun c => !env.pyIsAlpha c || alfasStored.contains (env.pyUpperChar c))

end NameAlfaFilter

/-- The per-instance dict `NameScriptFilter._cache`, as an association list
(newest entry first). -/
abbrev ScriptCache := List (Char × Bool)

namespace NameScriptFilter

/-- Method `NameScriptFilter._inScript` with the cache made explicit:
return the cached verdict when present, else compute
`not c.isalpha() or self._script in unicodedata.name(c, "")`, store it
and return it. -/
def inScript (env : PyEnv) (script : String) (cache : ScriptCache) (c : Char) :
    Bool × ScriptCache :=
  match cache.lookup c with
  | some b => (b, cache)
  | none =>
    let res := !env.pyIsAlpha c || pyIn script (env.unicodedataName c)
    (res, (c, res) :: cache)

/-- Body of `NameScriptFilter.__call__`:
`all(self._inScript(c) for c in str(o))`; Python's `all` stops at the first
`False`, so later characters are neither tested nor cached. -/
def callAux (env : PyEnv) (script : String) : List Char → ScriptCache → Bool × ScriptCache
  | [], cache => (true, cache)
  | c :: cs, cache =>
    let r := inScript env script cache c
    if r.1 then callAux env script cs r.2 else (false, r.2)

/-- Method `NameScriptFilter.__call__` on a name string, threading the cache. -/
def call (env : PyEnv) (script : String) (cache : ScriptCache) (o : String) :
    Bool × ScriptCache :=
  callAux env script o.data cache

/-- The pure per-character predicate stated by claim C9: the character is
not alphabetic, or the configured script occurs in `unicodedata.name(c, "")`. -/
def inScriptPure (env : PyEnv) (script : String) (c : Char) : Bool :=
  !env.pyIsAlpha c || pyIn script (env.unicodedataName c)

/-- The pure filter verdict stated by claim C9: every character of the name
satisfies `inScriptPure`. -/
def callPure (env : PyEnv) (script : String) (o : String) : Bool :=
  o.data.all (inScriptPure env script)

/-- Cache contents after a sequence of earlier calls on the same filter
instance (most recent call first), starting from the empty cache of a
fresh instance. -/
def runCalls (env : PyEnv) (script : String) : List String → ScriptCache
  | [] => []
  | s :: rest => (call env script (runCalls env script rest) s).2

/-- Cache-correctness invariant: every cached verdict agrees with the pure
predicate. -/
def cacheOK (env : PyEnv) (script : String) (cache : ScriptCache) : Prop :=
  ∀ p ∈ cache, p.2 = inScriptPure env script p.1

end NameScriptFilter

/-- Constructor arguments of `NamesFilter.__init__`; a `none` component is
Python's `None`. -/
structure NamesFilterCfg where
  languages : Option (List String)
  nameRegex : Option (String → Bool)
  alfas : Option (List String)
  script : Option String

namespace NamesFilter

/-- The stored `self._languages`: `alwaysTrue` when the argument was `None`,
else a `NameLanguagesFilter`. -/
def languagesVerdict (cfg : NamesFilterCfg) (o : PyName) : Bool :=
  match cfg.languages with
  | none => alwaysTrue o
  | some ls => NameLanguagesFilter.call ls o

/-- The stored `self._nameRegex`: `alwaysTrue` when the argument was `None`,
else a `NameRegexFilter`. -/
def regexVerdict (cfg : NamesFilterCfg) (o : PyName) : Bool :=
  match cfg.nameRegex with
  | none => alwaysTrue o
  | some r => NameRegexFilter.call r o

/-- The stored `self._alfaFilter`: `alwaysTrue` when the argument was `None`,
else `NameAlfaFilter(alfas)` with the default `caseInsensitive=True`. -/
def alfaVerdict (env : PyEnv) (cfg : NamesFilterCfg) (o : PyName) : Bool :=
  match cfg.alfas with
  | none => alwaysTrue o
  | some alfas => NameAlfaFilter.call env (NameAlfaFilter.init env alfas true) o.str

/-- The stored `self._scriptFilter`: `alwaysTrue` when the argument was
`None` (leaving no cache to touch), else a `NameScriptFilter` with its
cache. -/
def scriptVerdict (env : PyEnv) (cfg : NamesFilterCfg) (st : ScriptCache) (o : PyName) :
    Bool × ScriptCache :=
  match cfg.script with
  | none => (alwaysTrue o, st)
  | some script => NameScriptFilter.call env script st o.str

/-- Method `NamesFilter.__call__`:
`self._languages(o) and self._nameRegex(o) and self._alfaFilter(o) and self._scriptFilter(o)`.
Python's `and` evaluates left to right and stops at the first falsy value;
the returned list records which sub-filters were consulted, in order
(0 languages, 1 regex, 2 alfa, 3 script). -/
def call (env : PyEnv) (cfg : NamesFilterCfg) (st : ScriptCache) (o : PyName) :
    Bool × ScriptCache × List Nat :=
  if languagesVerdict cfg o then
    if regexVerdict cfg o then
      if alfaVerdict env cfg o then
        let r := scriptVerdict env cfg st o
        (r.1, r.2, [0, 1, 2, 3])
      else (false, st, [0, 1, 2])
    else (false, st, [0, 1])
  else (false, st, [0])

/-- The script component's pure verdict (used to state claims; equals the
stateful verdict whenever the cache satisfies `cacheOK`). -/
def scriptPureVerdict (env : PyEnv) (cfg : NamesFilterCfg) (o : PyName) : Bool :=
  match cfg.script with
  | none => true
  | some script => NameScriptFilter.callPure env script o.str

/-- The script sub-filter's cache after earlier calls went through it
(empty when the script component is unset). -/
def priorCache (env : PyEnv) (cfg : NamesFilterCfg) (prev : List String) : ScriptCache :=
  match cfg.script with
  | none => []
  | some script => NameScriptFilter.runCalls env script prev

end NamesFilter

/-- Method `NamesGrammarFilter.__call__` over its collaborators, which live
outside the sources under study and are taken as parameters:
`getTokens` is the result of `name.language.lex.getTokens(name)` (evaluated
before the `try` block, so its failures propagate), `guessType` is
`name.guessType(tokens)` (consulted inside the `try` block when the
`guessType` flag is set), `analyse` is `name.grammar.analyse(tokens)`.
The `except` clause catches exactly `NotInLanguage` and returns `False`;
a completed body returns `True`. -/
def NamesGrammarFilter.call {τ : Type} (guessTypeFlag : Bool)
    (getTokens : Except PyError τ)
    (guessType : τ → Except PyError Unit)
    (analyse : τ → Except PyError Unit) : Except PyError Bool :=
  match getTokens with
  | .error e => .error e
  | .ok tokens =>
    let body : Except PyError Bool :=
      match (if guessTypeFlag then guessType tokens else .ok ()) with
      | .error e => .error e
      | .ok _ =>
        match analyse tokens with
        | .error e => .error e
        | .ok _ => .ok true
    match body with
    | .ok b => .ok b
    | .error .notInLanguage => .ok false
    | .error e => .error e

/-- Small concrete environment used by witnesses: ASCII-flavoured string
primitives standing in for the Python ones. -/
def envASCII : PyEnv :=
  { pyIsAlpha := Char.isAlpha
    pyUpperChar := fun c => String.singleton c.toUpper
    pyUpperStr := fun s => String.map Char.toUpper s
    unicodedataName := fun c => if c = 'a' ∨ c = 'A' then "LATIN LETTER A" else "" }

/-- Association-list lookup misses when no pair carries the key. -/
theorem lookup_none_of_no_key {β : Type} (L : List (String × β)) (val : String)
    (h : ∀ p ∈ L, p.1 ≠ val) : L.lookup val = none := by
  induction L with
  | nil => rfl
  | cons p L ih =>
    obtain ⟨k, b⟩ := p
    have hk : (val == k) = false :=
      beq_eq_false_iff_ne.mpr (fun hv => h (k, b) (List.mem_cons_self _ _) hv.symm)
    simp only [List.lookup, hk]
    exact ih (fun q hq => h q (List.mem_cons_of_mem _ hq))

/-- On a code registered for no member, `MorphCategory.fromLntrf` reaches its
`KeyError` handler, which first evaluates `cls.category()`. -/
theorem fromLntrf_unregistered {α : Type} [DecidableEq α] (cls : MorphCategoryCls α)
    (val : String) (h : val ∉ MorphCategory.codes cls) :
    MorphCategory.fromLntrf cls val =
      (match cls.categoryMethod with
       | .error e => .error e
       | .ok cat => .error (.invalidCategoryValue cat.lntrf val)) := by
  have hl : (((MorphCategory.mappingLntrf cls).map (fun kv => (kv.2, kv.1))).reverse).lookup val
      = none := by
    apply lookup_none_of_no_key
    intro p hp
    rw [List.mem_reverse, List.mem_map] at hp
    obtain ⟨q, hq, rfl⟩ := hp
    rw [MorphCategory.mappingLntrf, List.mem_map] at hq
    obtain ⟨e, he, rfl⟩ := hq
    intro hv
    exact h (by rw [MorphCategory.codes, List.mem_map]; exact ⟨e, he, hv⟩)
  unfold MorphCategory.fromLntrf
  rw [hl]

/-- Claim C1: calling `fromLntrf` on any of the seven value enums with a
string that is not a registered value code of that kind was claimed to raise
`MorphCategoryInvalidValueException`.  In fact the exception's first
constructor argument evaluates `cls.category()`, which is the unoverridden
base static method and raises `NotImplementedError` instead; that error is
what the caller sees, for every unregistered code of every kind. -/
theorem fromLntrf_unregistered_raises_notImplemented :
    (∀ val : String, val ∉ MorphCategory.codes POS.cls →
        POS.fromLntrf val = .error .notImplementedError) ∧
    (∀ val : String, val ∉ MorphCategory.codes Gender.cls →
        Gender.fromLntrf val = .error .notImplementedError) ∧
    (∀ val : String, val ∉ MorphCategory.codes Number.cls →
        Number.fromLntrf val = .error .notImplementedError) ∧
    (∀ val : String, val ∉ MorphCategory.codes Case.cls →
        Case.fromLntrf val = .error .notImplementedError) ∧
    (∀ val : String, val ∉ MorphCategory.codes Negation.cls →
        Negation.fromLntrf val = .error .notImplementedError) ∧
    (∀ val : String, val ∉ MorphCategory.codes DegreeOfComparison.cls →
        DegreeOfComparison.fromLntrf val = .error .notImplementedError) ∧
    (∀ val : String, val ∉ MorphCategory.codes Person.cls →
        Person.fromLntrf val = .error .notImplementedError) := by
  refine ⟨?_, ?_, ?_, ?_, ?_, ?_, ?_⟩ <;>
    exact fun val h => fromLntrf_unregistered _ val h

/-- Witness for C1's theorem at the concrete unregistered code "zz". -/
theorem fromLntrf_unregistered_raises_notImplemented_witness :
    POS.fromLntrf "zz" = .error .notImplementedError ∧
    Gender.fromLntrf "zz" = .error .notImplementedError ∧
    Number.fromLntrf "zz" = .error .notImplementedError ∧
    Case.fromLntrf "zz" = .error .notImplementedError ∧
    Negation.fromLntrf "zz" = .error .notImplementedError ∧
    DegreeOfComparison.fromLntrf "zz" = .error .notImplementedError ∧
    Person.fromLntrf "zz" = .error .notImplementedError :=
  ⟨fromLntrf_unregistered_raises_notImplemented.1 "zz" (by decide),
   fromLntrf_unregistered_raises_notImplemented.2.1 "zz" (by decide),
   fromLntrf_unregistered_raises_notImplemented.2.2.1 "zz" (by decide),
   fromLntrf_unregistered_raises_notImplemented.2.2.2.1 "zz" (by decide),
   fromLntrf_unregistered_raises_notImplemented.2.2.2.2.1 "zz" (by decide),
   fromLntrf_unregistered_raises_notImplemented.2.2.2.2.2.1 "zz" (by decide),
   fromLntrf_unregistered_raises_notImplemented.2.2.2.2.2.2 "zz" (by decide)⟩

/-- Claim C2: `lntrf()` on a category value was claimed to return the kind
code concatenated with the value code (e.g. `Case.NOMINATIVE.lntrf() = "c1"`).
In fact `self.category()` is the unoverridden base static method, so `lntrf()`
raises `NotImplementedError` for every value of every kind (and even with a
category available the source would add a bound method to a string, a
`TypeError`, since `self.lntrfValue` is not called). -/
theorem lntrf_raises_notImplemented :
    (∀ v : POS, POS.lntrf v = .error .notImplementedError) ∧
    (∀ v : Gender, Gender.lntrf v = .error .notImplementedError) ∧
    (∀ v : Number, Number.lntrf v = .error .notImplementedError) ∧
    (∀ v : Case, Case.lntrf v = .error .notImplementedError) ∧
    (∀ v : Negation, Negation.lntrf v = .error .notImplementedError) ∧
    (∀ v : DegreeOfComparison, DegreeOfComparison.lntrf v = .error .notImplementedError) ∧
    (∀ v : Person, Person.lntrf v = .error .notImplementedError) := by
  refine ⟨?_, ?_, ?_, ?_, ?_, ?_, ?_⟩ <;> intro v <;> rfl

/-- Claim C3: for every value enum and every value `v`,
`fromLntrf (lntrfValue v) = v`, and the value encoding is injective within
each kind. -/
theorem value_code_roundtrip_and_injective :
    ((∀ v : POS, POS.fromLntrf (POS.lntrfValue v) = .ok v) ∧
     (∀ v : Gender, Gender.fromLntrf (Gender.lntrfValue v) = .ok v) ∧
     (∀ v : Number, Number.fromLntrf (Number.lntrfValue v) = .ok v) ∧
     (∀ v : Case, Case.fromLntrf (Case.lntrfValue v) = .ok v) ∧
     (∀ v : Negation, Negation.fromLntrf (Negation.lntrfValue v) = .ok v) ∧
     (∀ v : DegreeOfComparison,
        DegreeOfComparison.fromLntrf (DegreeOfComparison.lntrfValue v) = .ok v) ∧
     (∀ v : Person, Person.fromLntrf (Person.lntrfValue v) = .ok v)) ∧
    ((∀ v w : POS, POS.lntrfValue v = POS.lntrfValue w → v = w) ∧
     (∀ v w : Gender, Gender.lntrfValue v = Gender.lntrfValue w → v = w) ∧
     (∀ v w : Number, Number.lntrfValue v = Number.lntrfValue w → v = w) ∧
     (∀ v w : Case, Case.lntrfValue v = Case.lntrfValue w → v = w) ∧
     (∀ v w : Negation, Negation.lntrfValue v = Negation.lntrfValue w → v = w) ∧
     (∀ v w : DegreeOfComparison,
        DegreeOfComparison.lntrfValue v = DegreeOfComparison.lntrfValue w → v = w) ∧
     (∀ v w : Person, Person.lntrfValue v = Person.lntrfValue w → v = w)) := by
  constructor <;> refine ⟨?_, ?_, ?_, ?_, ?_, ?_, ?_⟩ <;> decide

/-- Witness for C3's theorem at `Case.NOMINATIVE`. -/
theorem value_code_roundtrip_and_injective_witness :
    Case.fromLntrf (Case.lntrfValue Case.NOMINATIVE) = .ok Case.NOMINATIVE ∧
    Case.NOMINATIVE = Case.NOMINATIVE :=
  ⟨value_code_roundtrip_and_injective.1.2.2.2.1 Case.NOMINATIVE,
   value_code_roundtrip_and_injective.2.2.2.2.1 Case.NOMINATIVE Case.NOMINATIVE rfl⟩

/-- Claim C4: the kind-level encoding maps the seven kinds to "k", "g", "n",
"c", "e", "d", "p" bijectively; `MorphCategories.fromLntrf` inverts it on
every kind, and on every string outside those seven codes it raises
`MorphCategoryInvalidException` rather than returning a default. -/
theorem kind_code_bijection_and_inverse :
    (MorphCategories.lntrf .POS = "k" ∧ MorphCategories.lntrf .GENDER = "g" ∧
     MorphCategories.lntrf .NUMBER = "n" ∧ MorphCategories.lntrf .CASE = "c" ∧
     MorphCategories.lntrf .NEGATION = "e" ∧
     MorphCategories.lntrf .DEGREE_OF_COMPARISON = "d" ∧
     MorphCategories.lntrf .PERSON = "p") ∧
    (∀ k q : MorphCategories, MorphCategories.lntrf k = MorphCategories.lntrf q → k = q) ∧
    (∀ k : MorphCategories, MorphCategories.fromLntrf (MorphCategories.lntrf k) = .ok k) ∧
    (∀ s : String, s ≠ "k" → s ≠ "g" → s ≠ "n" → s ≠ "c" → s ≠ "e" → s ≠ "d" → s ≠ "p" →
       MorphCategories.fromLntrf s = .error (.invalidCategory s)) := by
  refine ⟨by decide, by decide, by decide, ?_⟩
  intro s h1 h2 h3 h4 h5 h6 h7
  have hl : (((MorphCategories.mappingLntrf.map (fun kv => (kv.2, kv.1))).reverse).lookup s)
      = none := by
    apply lookup_none_of_no_key
    intro p hp
    simp only [MorphCategories.mappingLntrf, List.map_cons, List.map_nil,
      List.reverse_cons, List.reverse_nil, List.nil_append, List.cons_append,
      List.mem_reverse, List.mem_cons, List.not_mem_nil, or_false] at hp
    rcases hp with rfl | rfl | rfl | rfl | rfl | rfl | rfl <;>
      exact fun hv => by simp_all
  unfold MorphCategories.fromLntrf
  rw [hl]

/-- Witness for C4's theorem: injectivity at `POS`, the inverse at `CASE`,
and rejection of the concrete unknown code "z". -/
theorem kind_code_bijection_and_inverse_witness :
    MorphCategories.POS = MorphCategories.POS ∧
    MorphCategories.fromLntrf (MorphCategories.lntrf .CASE) = .ok .CASE ∧
    MorphCategories.fromLntrf "z" = .error (.invalidCategory "z") :=
  ⟨kind_code_bijection_and_inverse.2.1 .POS .POS rfl,
   kind_code_bijection_and_inverse.2.2.1 .CASE,
   kind_code_bijection_and_inverse.2.2.2 "z" (by decide) (by decide) (by decide)
     (by decide) (by decide) (by decide) (by decide)⟩

/-- A successful association-list lookup comes from a pair of the list. -/
theorem lookup_some_mem {α β : Type} [BEq α] [LawfulBEq α]
    (L : List (α × β)) (a : α) (b : β) (h : L.lookup a = some b) : (a, b) ∈ L := by
  induction L with
  | nil => cases h
  | cons p L ih =>
    obtain ⟨k, v⟩ := p
    cases hk : a == k
    · simp only [List.lookup, hk] at h
      exact List.mem_cons_of_mem _ (ih h)
    · simp only [List.lookup, hk] at h
      obtain rfl := Option.some.inj h
      obtain rfl := eq_of_beq hk
      exact List.mem_cons_self _ _

/-- On a correct cache, `_inScript` returns the pure verdict and keeps the
cache correct. -/
theorem inScript_pure (env : PyEnv) (script : String) (cache : ScriptCache) (c : Char)
    (h : NameScriptFilter.cacheOK env script cache) :
    (NameScriptFilter.inScript env script cache c).1 =
      NameScriptFilter.inScriptPure env script c ∧
    NameScriptFilter.cacheOK env script (NameScriptFilter.inScript env script cache c).2 := by
  unfold NameScriptFilter.inScript
  cases hl : cache.lookup c with
  | some b => exact ⟨h (c, b) (lookup_some_mem _ _ _ hl), h⟩
  | none =>
    refine ⟨rfl, ?_⟩
    intro p hp
    rcases List.mem_cons.mp hp with rfl | hp2
    · rfl
    · exact h p hp2

/-- On a correct cache, the body of `NameScriptFilter.__call__` computes the
pure conjunction over the characters and keeps the cache correct. -/
theorem callAux_pure (env : PyEnv) (script : String) :
    ∀ (l : List Char) (cache : ScriptCache), NameScriptFilter.cacheOK env script cache →
      (NameScriptFilter.callAux env script l cache).1 =
        l.all (NameScriptFilter.inScriptPure env script) ∧
      NameScriptFilter.cacheOK env script (NameScriptFilter.callAux env script l cache).2 := by
  intro l
  induction l with
  | nil => exact fun cache h => ⟨rfl, h⟩
  | cons c cs ih =>
    intro cache h
    obtain ⟨h1, h2⟩ := inScript_pure env script cache c h
    simp only [NameScriptFilter.callAux]
    cases hr : (NameScriptFilter.inScript env script cache c).1
    · rw [hr] at h1
      simp only [hr, if_false, List.all_cons, ← h1, Bool.false_and]
      exact ⟨rfl, h2⟩
    · rw [hr] at h1
      simp only [hr, if_true, List.all_cons, ← h1, Bool.true_and]
      exact ih _ h2

/-- Any cache produced by a sequence of calls on a fresh filter is correct. -/
theorem runCalls_cacheOK (env : PyEnv) (script : String) :
    ∀ prev : List String,
      NameScriptFilter.cacheOK env script (NameScriptFilter.runCalls env script prev) := by
  intro prev
  induction prev with
  | nil => exact fun p hp => absurd hp (List.not_mem_nil p)
  | cons s rest ih => exact (callAux_pure env script s.data _ ih).2

/-- Two `all`-folds agree along a pointwise agreement of the predicates. -/
theorem all_eq_of_forall2 {α β : Type} (p : α → Bool) (q : β → Bool) :
    ∀ {l : List α} {m : List β}, List.Forall₂ (fun a b => p a = q b) l m →
      l.all p = m.all q := by
  intro l m h
  induction h with
  | nil => rfl
  | cons hab _ ih => simp only [List.all_cons, hab, ih]

/-- Claim C5 counterexample: with type guessing enabled, a `guessType` that
raises `NotInLanguage` makes the filter return `False` although `analyse`
(here accepting every token sequence) does not raise `NotInLanguage` — the
`except` clause catches the failure no matter which call inside the `try`
block raised it. -/
theorem grammarFilter_claim_counterexample :
    NamesGrammarFilter.call true (.ok ()) (fun _ => .error .notInLanguage)
        (fun _ => .ok ()) = .ok false ∧
    (fun _ : Unit => (.ok () : Except PyError Unit)) () ≠ .error .notInLanguage :=
  ⟨rfl, by decide⟩

/-- Claim C5 (amended): a failing `getTokens` propagates unmodified; when
`getTokens` succeeds and the `guessType` step (when enabled) completes, the
filter returns `False` exactly when `analyse` raises `NotInLanguage`,
returns `True` when `analyse` completes, and propagates any other `analyse`
failure unmodified; when the enabled `guessType` step itself raises,
`NotInLanguage` yields `False` and any other failure propagates, `analyse`
unconsulted. -/
theorem grammarFilter_call_characterization {τ : Type} (flag : Bool)
    (getTokens : Except PyError τ) (guessType analyse : τ → Except PyError Unit) :
    (∀ e, getTokens = .error e →
       NamesGrammarFilter.call flag getTokens guessType analyse = .error e) ∧
    (∀ t, getTokens = .ok t → (if flag then guessType t else .ok ()) = .ok () →
       ((NamesGrammarFilter.call flag getTokens guessType analyse = .ok false ↔
           analyse t = .error .notInLanguage) ∧
        (∀ u, analyse t = .ok u →
           NamesGrammarFilter.call flag getTokens guessType analyse = .ok true) ∧
        (∀ e, analyse t = .error e → e ≠ .notInLanguage →
           NamesGrammarFilter.call flag getTokens guessType analyse = .error e))) ∧
    (∀ t, getTokens = .ok t → flag = true → guessType t = .error .notInLanguage →
       NamesGrammarFilter.call flag getTokens guessType analyse = .ok false) ∧
    (∀ t e, getTokens = .ok t → flag = true → guessType t = .error e →
       e ≠ .notInLanguage →
       NamesGrammarFilter.call flag getTokens guessType analyse = .error e) := by
  refine ⟨?_, ?_, ?_, ?_⟩
  · intro e he
    simp [NamesGrammarFilter.call, he]
  · intro t ht hg
    subst ht
    refine ⟨?_, ?_, ?_⟩
    · constructor
      · intro hcall
        cases ha : analyse t with
        | ok u => simp [NamesGrammarFilter.call, hg, ha] at hcall
        | error e =>
          cases e with
          | notInLanguage => rfl
          | invalidCategory v => simp [NamesGrammarFilter.call, hg, ha] at hcall
          | invalidCategoryValue c v => simp [NamesGrammarFilter.call, hg, ha] at hcall
          | notImplementedError => simp [NamesGrammarFilter.call, hg, ha] at hcall
          | typeError => simp [NamesGrammarFilter.call, hg, ha] at hcall
      · intro ha
        simp [NamesGrammarFilter.call, hg, ha]
    · intro u ha
      simp [NamesGrammarFilter.call, hg, ha]
    · intro e ha he
      cases e with
      | notInLanguage => exact absurd rfl he
      | invalidCategory v => simp [NamesGrammarFilter.call, hg, ha]
      | invalidCategoryValue c v => simp [NamesGrammarFilter.call, hg, ha]
      | notImplementedError => simp [NamesGrammarFilter.call, hg, ha]
      | typeError => simp [NamesGrammarFilter.call, hg, ha]
  · intro t ht hf hg
    subst ht
    subst hf
    simp [NamesGrammarFilter.call, hg]
  · intro t e ht hf hg he
    subst ht
    subst hf
    cases e with
    | notInLanguage => exact absurd rfl he
    | invalidCategory v => simp [NamesGrammarFilter.call, hg]
    | invalidCategoryValue c v => simp [NamesGrammarFilter.call, hg]
    | notImplementedError => simp [NamesGrammarFilter.call, hg]
    | typeError => simp [NamesGrammarFilter.call, hg]

/-- Witness for C5's amended theorem on concrete collaborators: a rejecting
`analyse` yields `False`, an accepting one `True`, a failing `getTokens` and
a `TypeError` from an enabled `guessType` both propagate. -/
theorem grammarFilter_call_characterization_witness :
    NamesGrammarFilter.call false (.ok ()) (fun _ => .ok ())
        (fun _ => .error .notInLanguage) = .ok false ∧
    NamesGrammarFilter.call false (.ok ()) (fun _ => .ok ())
        (fun _ => .ok ()) = .ok true ∧
    NamesGrammarFilter.call false (.error (.invalidCategory "z") : Except PyError Unit)
        (fun _ => .ok ()) (fun _ => .ok ()) = .error (.invalidCategory "z") ∧
    NamesGrammarFilter.call true (.ok ()) (fun _ => .error .typeError)
        (fun _ => .ok ()) = .error .typeError :=
  ⟨((grammarFilter_call_characterization false (.ok ()) (fun _ => .ok ())
      (fun _ => .error .notInLanguage)).2.1 () rfl rfl).1.mpr rfl,
   ((grammarFilter_call_characterization false (.ok ()) (fun _ => .ok ())
      (fun _ => .ok ())).2.1 () rfl rfl).2.1 () rfl,
   (grammarFilter_call_characterization false
      (.error (.invalidCategory "z") : Except PyError Unit)
      (fun _ => .ok ()) (fun _ => .ok ())).1 (.invalidCategory "z") rfl,
   (grammarFilter_call_characterization true (.ok ()) (fun _ => .error .typeError)
      (fun _ => .ok ())).2.2.2 () .typeError rfl rfl rfl (by decide)⟩

/-- Claim C6: a `NamesFilter` component constructed from `None` is the
always-accept identity `alwaysTrue` — the language, regex, alfa and script
components each accept every name when unset, and
`NamesFilter(None, None, None, None)` accepts every name outright. -/
theorem namesFilter_none_components_accept :
    (∀ (env : PyEnv) (st : ScriptCache) (o : PyName),
       (NamesFilter.call env ⟨none, none, none, none⟩ st o).1 = true) ∧
    (∀ (cfg : NamesFilterCfg) (o : PyName), cfg.languages = none →
       NamesFilter.languagesVerdict cfg o = true) ∧
    (∀ (cfg : NamesFilterCfg) (o : PyName), cfg.nameRegex = none →
       NamesFilter.regexVerdict cfg o = true) ∧
    (∀ (env : PyEnv) (cfg : NamesFilterCfg) (o : PyName), cfg.alfas = none →
       NamesFilter.alfaVerdict env cfg o = true) ∧
    (∀ (env : PyEnv) (cfg : NamesFilterCfg) (st : ScriptCache) (o : PyName),
       cfg.script = none → NamesFilter.scriptVerdict env cfg st o = (true, st)) := by
  refine ⟨?_, ?_, ?_, ?_, ?_⟩
  · intro env st o
    rfl
  · intro cfg o h
    unfold NamesFilter.languagesVerdict
    rw [h]
    rfl
  · intro cfg o h
    unfold NamesFilter.regexVerdict
    rw [h]
    rfl
  · intro env cfg o h
    unfold NamesFilter.alfaVerdict
    rw [h]
    rfl
  · intro env cfg st o h
    unfold NamesFilter.scriptVerdict
    rw [h]
    rfl

/-- Witness for C6's theorem on a concrete name, empty cache and a
configuration whose components are all set to `None`. -/
theorem namesFilter_none_components_accept_witness :
    (NamesFilter.call envASCII ⟨none, none, none, none⟩ [] ⟨"cs", "Novak"⟩).1 = true ∧
    NamesFilter.languagesVerdict ⟨none, none, none, none⟩ ⟨"cs", "Novak"⟩ = true ∧
    NamesFilter.regexVerdict ⟨none, none, none, none⟩ ⟨"cs", "Novak"⟩ = true ∧
    NamesFilter.alfaVerdict envASCII ⟨none, none, none, none⟩ ⟨"cs", "Novak"⟩ = true ∧
    NamesFilter.scriptVerdict envASCII ⟨none, none, none, none⟩ [] ⟨"cs", "Novak"⟩
      = (true, []) :=
  ⟨namesFilter_none_components_accept.1 envASCII [] ⟨"cs", "Novak"⟩,
   namesFilter_none_components_accept.2.1 ⟨none, none, none, none⟩ ⟨"cs", "Novak"⟩ rfl,
   namesFilter_none_components_accept.2.2.1 ⟨none, none, none, none⟩ ⟨"cs", "Novak"⟩ rfl,
   namesFilter_none_components_accept.2.2.2.1 envASCII ⟨none, none, none, none⟩
     ⟨"cs", "Novak"⟩ rfl,
   namesFilter_none_components_accept.2.2.2.2 envASCII ⟨none, none, none, none⟩ []
     ⟨"cs", "Novak"⟩ rfl⟩

/-- Claim C7: `NamesFilter.__call__` accepts exactly when all four
sub-filters (language, regex, alfa, script — in that order) accept, and it
short-circuits: the recorded consultation trace stops at the first rejecting
sub-filter and the result is then `False`.  The script sub-filter's verdict
is its pure one for any cache reachable from a fresh instance. -/
theorem namesFilter_conjunction_shortcircuit (env : PyEnv) (cfg : NamesFilterCfg)
    (prev : List String) (o : PyName) :
    ((NamesFilter.call env cfg (NamesFilter.priorCache env cfg prev) o).1 =
       (NamesFilter.languagesVerdict cfg o && NamesFilter.regexVerdict cfg o &&
        NamesFilter.alfaVerdict env cfg o && NamesFilter.scriptPureVerdict env cfg o)) ∧
    (NamesFilter.languagesVerdict cfg o = false →
       (NamesFilter.call env cfg (NamesFilter.priorCache env cfg prev) o).1 = false ∧
       (NamesFilter.call env cfg (NamesFilter.priorCache env cfg prev) o).2.2 = [0]) ∧
    (NamesFilter.languagesVerdict cfg o = true →
     NamesFilter.regexVerdict cfg o = false →
       (NamesFilter.call env cfg (NamesFilter.priorCache env cfg prev) o).1 = false ∧
       (NamesFilter.call env cfg (NamesFilter.priorCache env cfg prev) o).2.2 = [0, 1]) ∧
    (NamesFilter.languagesVerdict cfg o = true →
     NamesFilter.regexVerdict cfg o = true →
     NamesFilter.alfaVerdict env cfg o = false →
       (NamesFilter.call env cfg (NamesFilter.priorCache env cfg prev) o).1 = false ∧
       (NamesFilter.call env cfg (NamesFilter.priorCache env cfg prev) o).2.2 = [0, 1, 2]) ∧
    (NamesFilter.languagesVerdict cfg o = true →
     NamesFilter.regexVerdict cfg o = true →
     NamesFilter.alfaVerdict env cfg o = true →
       (NamesFilter.call env cfg (NamesFilter.priorCache env cfg prev) o).2.2
         = [0, 1, 2, 3]) := by
  have hs : (NamesFilter.scriptVerdict env cfg (NamesFilter.priorCache env cfg prev) o).1 =
      NamesFilter.scriptPureVerdict env cfg o := by
    unfold NamesFilter.scriptVerdict NamesFilter.scriptPureVerdict NamesFilter.priorCache
    cases cfg.script with
    | none => rfl
    | some script =>
      exact (callAux_pure env script o.str.data _ (runCalls_cacheOK env script prev)).1
  refine ⟨?_, ?_, ?_, ?_, ?_⟩
  · cases hl : NamesFilter.languagesVerdict cfg o with
    | false => simp [NamesFilter.call, hl]
    | true =>
      cases hr : NamesFilter.regexVerdict cfg o with
      | false => simp [NamesFilter.call, hl, hr]
      | true =>
        cases ha : NamesFilter.alfaVerdict env cfg o with
        | false => simp [NamesFilter.call, hl, hr, ha]
        | true => simp [NamesFilter.call, hl, hr, ha, hs]
  · intro hl
    constructor <;> simp [NamesFilter.call, hl]
  · intro hl hr
    constructor <;> simp [NamesFilter.call, hl, hr]
  · intro hl hr ha
    constructor <;> simp [NamesFilter.call, hl, hr, ha]
  · intro hl hr ha
    simp [NamesFilter.call, hl, hr, ha]

/-- Witness for C7's theorem: with every component unset all four verdicts
hold and the trace is full; a set language filter with an empty allowed set
rejects at the first position; a rejecting regex stops at the second; an
empty allowed-alfa set on an alphabetic name stops at the third. -/
theorem namesFilter_conjunction_shortcircuit_witness :
    (NamesFilter.call envASCII ⟨none, none, none, none⟩
       (NamesFilter.priorCache envASCII ⟨none, none, none, none⟩ []) ⟨"cs", "a"⟩).2.2
       = [0, 1, 2, 3] ∧
    ((NamesFilter.call envASCII ⟨some [], none, none, none⟩
       (NamesFilter.priorCache envASCII ⟨some [], none, none, none⟩ []) ⟨"cs", "a"⟩).1
       = false ∧
     (NamesFilter.call envASCII ⟨some [], none, none, none⟩
       (NamesFilter.priorCache envASCII ⟨some [], none, none, none⟩ []) ⟨"cs", "a"⟩).2.2
       = [0]) ∧
    ((NamesFilter.call envASCII ⟨none, some (fun _ => false), none, none⟩
       (NamesFilter.priorCache envASCII ⟨none, some (fun _ => false), none, none⟩ [])
       ⟨"cs", "a"⟩).1 = false ∧
     (NamesFilter.call envASCII ⟨none, some (fun _ => false), none, none⟩
       (NamesFilter.priorCache envASCII ⟨none, some (fun _ => false), none, none⟩ [])
       ⟨"cs", "a"⟩).2.2 = [0, 1]) ∧
    ((NamesFilter.call envASCII ⟨none, none, some [], none⟩
       (NamesFilter.priorCache envASCII ⟨none, none, some [], none⟩ []) ⟨"cs", "a"⟩).1
       = false ∧
     (NamesFilter.call envASCII ⟨none, none, some [], none⟩
       (NamesFilter.priorCache envASCII ⟨none, none, some [], none⟩ []) ⟨"cs", "a"⟩).2.2
       = [0, 1, 2]) :=
  ⟨(namesFilter_conjunction_shortcircuit envASCII ⟨none, none, none, none⟩ []
      ⟨"cs", "a"⟩).2.2.2.2 rfl rfl rfl,
   (namesFilter_conjunction_shortcircuit envASCII ⟨some [], none, none, none⟩ []
      ⟨"cs", "a"⟩).2.1 rfl,
   (namesFilter_conjunction_shortcircuit envASCII ⟨none, some (fun _ => false), none, none⟩
      [] ⟨"cs", "a"⟩).2.2.1 rfl rfl,
   (namesFilter_conjunction_shortcircuit envASCII ⟨none, none, some [], none⟩ []
      ⟨"cs", "a"⟩).2.2.2.1 rfl rfl (by decide)⟩

/-- Claim C8: for every allowed-alfa set (including the empty one) and both
values of `caseInsensitive`, `NameAlfaFilter` accepts every name whose
string form contains no alphabetic character — each character then
satisfies the disjunction through `not c.isalpha()`. -/
theorem alfaFilter_accepts_nonalphabetic (env : PyEnv) (alfas : List String)
    (caseInsensitive : Bool) (o : String)
    (h : ∀ c ∈ o.data, env.pyIsAlpha c = false) :
    NameAlfaFilter.call env (NameAlfaFilter.init env alfas caseInsensitive) o = true := by
  unfold NameAlfaFilter.call
  rw [List.all_eq_true]
  intro c hc
  simp [h c hc]

/-- Witness for C8's theorem: the purely numeric name "123" with the empty
allowed set, under both values of `caseInsensitive`. -/
theorem alfaFilter_accepts_nonalphabetic_witness :
    NameAlfaFilter.call envASCII (NameAlfaFilter.init envASCII [] true) "123" = true ∧
    NameAlfaFilter.call envASCII (NameAlfaFilter.init envASCII [] false) "123" = true :=
  ⟨alfaFilter_accepts_nonalphabetic envASCII [] true "123" (by decide),
   alfaFilter_accepts_nonalphabetic envASCII [] false "123" (by decide)⟩

/-- Claim C9: the per-instance cache of `NameScriptFilter` is unobservable.
After any sequence of earlier calls on the same instance, `__call__` on a
name returns exactly the pure predicate "every character of the name is
non-alphabetic or the configured script occurs in `unicodedata.name(c, '')`",
so repeated calls on the same name always agree with a fresh instance. -/
theorem scriptFilter_cache_unobservable (env : PyEnv) (script : String)
    (prev : List String) (o : String) :
    (NameScriptFilter.call env script (NameScriptFilter.runCalls env script prev) o).1 =
      NameScriptFilter.callPure env script o ∧
    (NameScriptFilter.call env script (NameScriptFilter.runCalls env script prev) o).1 =
      (NameScriptFilter.call env script [] o).1 := by
  have h1 := (callAux_pure env script o.data _ (runCalls_cacheOK env script prev)).1
  have h2 := (callAux_pure env script o.data []
    (fun p hp => absurd hp (List.not_mem_nil p))).1
  exact ⟨h1, h1.trans h2.symm⟩

/-- Claim C10: with the default `caseInsensitive=True`, the verdict of
`NameAlfaFilter` depends only on the `str.upper` image and `str.isalpha`
status of each character: names whose corresponding characters agree on
both get the same verdict. -/
theorem alfaFilter_depends_only_on_upper_alpha (env : PyEnv) (alfas : List String)
    (s t : String)
    (h : List.Forall₂ (fun a b => env.pyUpperChar a = env.pyUpperChar b ∧
           env.pyIsAlpha a = env.pyIsAlpha b) s.data t.data) :
    NameAlfaFilter.call env (NameAlfaFilter.init env alfas true) s =
      NameAlfaFilter.call env (NameAlfaFilter.init env alfas true) t := by
  unfold NameAlfaFilter.call
  exact all_eq_of_forall2 _ _ (h.imp (fun a b hab => by simp [hab.1, hab.2]))

/-- Witness for C10's theorem: "a" and "A" agree character-by-character on
upper image and alphabetic-ness, so the filter's verdicts coincide. -/
theorem alfaFilter_depends_only_on_upper_alpha_witness :
    NameAlfaFilter.call envASCII (NameAlfaFilter.init envASCII ["a"] true) "a" =
      NameAlfaFilter.call envASCII (NameAlfaFilter.init envASCII ["a"] true) "A" :=
  alfaFilter_depends_only_on_upper_alpha envASCII ["a"] "a" "A"
    (List.Forall₂.cons (by decide) List.Forall₂.nil)
